import Mathlib

/-!
# Verification of the freshdesk API client (request pipeline and error model)

Shallow embedding of the Go sources `client.go` (transport core, envelope,
structured error model) and the contacts resource client.  Go values are
modelled as follows:

* JSON documents are the inductive `Json` below; Go `encoding/json` dynamic
  values (`interface\x7b\x7d` after decoding) are also `Json`, with `Json.null`
  standing for Go `nil`.  Numeric literals are restricted to integers (every
  number appearing in this client's wire traffic — ids, status codes — is an
  integer; float64 representation issues are out of scope).
* Go byte slices and bodies are Lean `String`s (the bytes, UTF-8).
* Go maps (`map[string]T`) are association lists built by last-write-wins
  insertion, mirroring sequential JSON decoding into a Go map.
* `json.Compact` is modelled as parse-then-reprint with the canonical
  serializer below (key order and duplicate keys are preserved; the exotic
  divergences — escape-sequence normalisation, HTML escaping of `<>&` — do
  not affect any statement proved here and are elided).
-/

/-- A JSON document.  `obj` keeps its members as an ordered list of pairs,
duplicates included, exactly as they occur in the text. -/
inductive Json where
  | null
  | bool (b : Bool)
  | num (n : Int)
  | str (s : String)
  | arr (elems : List Json)
  | obj (members : List (String × Json))

/-- Escape one character for a JSON string literal. -/
def jsonEscapeChar (c : Char) : String :=
  if c = '"' then "\\\""
  else if c = '\\' then "\\\\"
  else if c = '\n' then "\\n"
  else if c = '\t' then "\\t"
  else if c = '\r' then "\\r"
  else if c.toNat < 32 then "\\u00" ++
    (let hx := fun (n : Nat) => String.singleton (Nat.digitChar n)
     hx (c.toNat / 16) ++ hx (c.toNat % 16))
  else String.singleton c

/-- Serialize a string to a quoted JSON string literal. -/
def jsonQuote (s : String) : String :=
  "\"" ++ String.join (s.toList.map jsonEscapeChar) ++ "\""

mutual

/-- Canonical compact serialization of a JSON document: no insignificant
whitespace, members in stored order.  This is the shape `json.Compact`
produces from a parsed document. -/
def Json.serialize : Json → String
  | .null => "null"
  | .bool true => "true"
  | .bool false => "false"
  | .num n => toString n
  | .str s => jsonQuote s
  | .arr es => "[" ++ serializeElems es ++ "]"
  | .obj ms => "\x7b" ++ serializeMembers ms ++ "\x7d"

/-- Serialize array elements, comma separated. -/
def serializeElems : List Json → String
  | [] => ""
  | [x] => x.serialize
  | x :: y :: rest => x.serialize ++ "," ++ serializeElems (y :: rest)

/-- Serialize object members, comma separated. -/
def serializeMembers : List (String × Json) → String
  | [] => ""
  | [(k, v)] => jsonQuote k ++ ":" ++ v.serialize
  | (k, v) :: m :: rest =>
      jsonQuote k ++ ":" ++ v.serialize ++ "," ++ serializeMembers (m :: rest)

end

/-- JSON insignificant whitespace. -/
def isJsonWs (c : Char) : Bool :=
  c = ' ' || c = '\t' || c = '\n' || c = '\r'

/-- Skip leading whitespace. -/
def skipWs : List Char → List Char
  | [] => []
  | c :: rest => if isJsonWs c then skipWs rest else c :: rest

/-- Hexadecimal digit test (this toolchain's `Char` lacks one). -/
def isHexDigitC (c : Char) : Bool :=
  c.isDigit || ('a' ≤ c && c ≤ 'f') || ('A' ≤ c && c ≤ 'F')

/-- Value of a hexadecimal digit. -/
def hexVal (c : Char) : Nat :=
  if c.isDigit then c.toNat - 48
  else if 'a' ≤ c then c.toNat - 87 else c.toNat - 55

/-- Parse the body of a JSON string literal (after the opening quote),
returning the decoded text and the input after the closing quote.  The
fuel bounds the number of consumed characters. -/
def parseStringBody : Nat → List Char → Option (String × List Char)
  | 0, _ => none
  | _, [] => none
  | fuel + 1, c :: rest =>
    if c = '"' then some ("", rest)
    else if c = '\\' then
      match rest with
      | [] => none
      | e :: tl =>
        if e = 'u' then
          match tl with
          | h1 :: h2 :: h3 :: h4 :: tl2 =>
            if isHexDigitC h1 && isHexDigitC h2 && isHexDigitC h3 && isHexDigitC h4 then
              (parseStringBody fuel tl2).map (fun r =>
                (String.singleton
                  (Char.ofNat (((hexVal h1 * 16 + hexVal h2) * 16 + hexVal h3) * 16 + hexVal h4))
                  ++ r.1, r.2))
            else none
          | _ => none
        else
          let unesc : Option Char :=
            if e = '"' then some '"'
            else if e = '\\' then some '\\'
            else if e = '/' then some '/'
            else if e = 'n' then some '\n'
            else if e = 't' then some '\t'
            else if e = 'r' then some '\r'
            else if e = 'b' then some (Char.ofNat 8)
            else if e = 'f' then some (Char.ofNat 12)
            else none
          match unesc with
          | some c2 =>
              (parseStringBody fuel tl).map (fun r => (String.singleton c2 ++ r.1, r.2))
          | none => none
    else if c.toNat < 32 then none
    else (parseStringBody fuel rest).map (fun r => (String.singleton c ++ r.1, r.2))

/-- Consume a run of decimal digits into an accumulator. -/
def parseDigitsAux : Nat → List Char → Nat × List Char
  | acc, [] => (acc, [])
  | acc, c :: rest =>
      if c.isDigit then parseDigitsAux (acc * 10 + (c.toNat - 48)) rest
      else (acc, c :: rest)

/-- Parse a nonempty run of decimal digits. -/
def parseDigits : List Char → Option (Nat × List Char)
  | [] => none
  | c :: rest =>
      if c.isDigit then some (parseDigitsAux (c.toNat - 48) rest) else none

mutual

/-- Fuel-bounded recursive-descent JSON parser: one value, returning the
remaining input.  Numbers are integer literals (optionally signed). -/
def parseVal : Nat → List Char → Option (Json × List Char)
  | 0, _ => none
  | fuel + 1, input =>
    match skipWs input with
    | 'n' :: 'u' :: 'l' :: 'l' :: rest => some (.null, rest)
    | 't' :: 'r' :: 'u' :: 'e' :: rest => some (.bool true, rest)
    | 'f' :: 'a' :: 'l' :: 's' :: 'e' :: rest => some (.bool false, rest)
    | '"' :: rest =>
        (parseStringBody (rest.length + 1) rest).map (fun r => (.str r.1, r.2))
    | '-' :: rest =>
        (parseDigits rest).map (fun r => (.num (-(r.1 : Int)), r.2))
    | c :: rest =>
        if c.isDigit then
          some (.num ((parseDigitsAux (c.toNat - 48) rest).1 : Int),
                (parseDigitsAux (c.toNat - 48) rest).2)
        else if c = '[' then
          match skipWs rest with
          | ']' :: tl2 => some (.arr [], tl2)
          | _ => parseArrElems fuel [] rest
        else if c = '\x7b' then
          match skipWs rest with
          | '\x7d' :: tl2 => some (.obj [], tl2)
          | _ => parseObjMembers fuel [] rest
        else none
    | [] => none

/-- Parse the elements of a non-empty array (after `[` or a comma). -/
def parseArrElems : Nat → List Json → List Char → Option (Json × List Char)
  | 0, _, _ => none
  | fuel + 1, acc, input => do
    let (v, rest) ← parseVal fuel input
    match skipWs rest with
    | ',' :: tl => parseArrElems fuel (v :: acc) tl
    | ']' :: tl => some (.arr (acc.reverse ++ [v]), tl)
    | _ => none

/-- Parse the members of a non-empty object (after the opening brace or a
comma). -/
def parseObjMembers : Nat → List (String × Json) → List Char →
    Option (Json × List Char)
  | 0, _, _ => none
  | fuel + 1, acc, input => do
    match skipWs input with
    | '"' :: tl => do
      let (k, rest1) ← parseStringBody (tl.length + 1) tl
      match skipWs rest1 with
      | ':' :: rest2 => do
        let (v, rest3) ← parseVal fuel rest2
        match skipWs rest3 with
        | ',' :: tl2 => parseObjMembers fuel ((k, v) :: acc) tl2
        | c :: tl2 =>
            if c = '\x7d' then some (.obj (acc.reverse ++ [(k, v)]), tl2)
            else none
        | [] => none
      | _ => none
    | _ => none

end

/-- Parse a complete JSON document: one value followed only by whitespace.
This models `json.Compact`'s and `json.Unmarshal`'s validity check. -/
def parseFull (s : String) : Option Json :=
  match parseVal (s.length + 1) s.toList with
  | some (j, rest) => if skipWs rest = [] then some j else none
  | none => none

/-- Parse one leading JSON value, permitting trailing input.  This models
`json.NewDecoder(...).Decode`, which reads a single value from the stream
(an empty stream yields an EOF error, i.e. `none`). -/
def parseHead (s : String) : Option Json :=
  (parseVal (s.length + 1) s.toList).map (fun r => r.1)

/-! ## Go map semantics (association lists, last write wins) -/

/-- Insert a binding into a Go map, replacing an existing key's value. -/
def insertRep {α : Type} : List (String × α) → String → α → List (String × α)
  | [], k, v => [(k, v)]
  | (k0, v0) :: rest, k, v =>
      if k0 = k then (k0, v) :: rest else (k0, v0) :: insertRep rest k v

/-- Build a Go map from JSON object members, processed in textual order:
this is how `encoding/json` decodes an object into a `map[string]T`. -/
def toGoMap {α : Type} (ms : List (String × α)) : List (String × α) :=
  ms.foldl (fun m kv => insertRep m kv.1 kv.2) []

/-- Go map lookup (`m[k]`), with `ok` reported through `Option`. -/
def goGet {α : Type} (m : List (String × α)) (k : String) : Option α :=
  (m.find? (fun p => p.1 = k)).map (fun p => p.2)

/-- Lexicographic comparison of character lists by codepoint: Go compares
strings bytewise, and UTF-8 byte order coincides with codepoint order. -/
def charListLt : List Char → List Char → Bool
  | [], [] => false
  | [], _ :: _ => true
  | _ :: _, [] => false
  | a :: as, b :: bs =>
      if a.toNat < b.toNat then true
      else if b.toNat < a.toNat then false
      else charListLt as bs

/-- Go's `<` on strings. -/
def strLtB (a b : String) : Bool :=
  charListLt a.toList b.toList

/-- Insert a pair into a key-sorted list (insertion-sort step). -/
def insertSorted {α : Type} (p : String × α) : List (String × α) → List (String × α)
  | [] => [p]
  | q :: rest =>
      if strLtB p.1 q.1 then p :: q :: rest else q :: insertSorted p rest

/-- Sort object members by key: `encoding/json` serializes Go maps in
ascending key order. -/
def sortPairs {α : Type} (ms : List (String × α)) : List (String × α) :=
  ms.foldr insertSorted []

/-- Keys in strictly increasing order (sorted and duplicate-free): the
canonical form in which an association list denotes a Go map uniquely. -/
def keysStrictSorted {α : Type} : List (String × α) → Bool
  | [] => true
  | [_] => true
  | p :: q :: rest => strLtB p.1 q.1 && keysStrictSorted (q :: rest)

/-! ## Base64 (`encoding/base64` standard alphabet, used by
`encoding/json` when it marshals a Go `[]byte`) -/

/-- The standard base64 alphabet. -/
def base64Alphabet : String :=
  "ABCDEFGHIJKLMNOPQRSTUVWXYZabcdefghijklmnopqrstuvwxyz0123456789+/"

/-- Character for a 6-bit group. -/
def base64Digit (n : Nat) : Char :=
  base64Alphabet.toList.getD n 'A'

/-- Standard base64 with padding over a byte list. -/
def base64Chunks : List Nat → String
  | [] => ""
  | [b1] =>
      String.mk [base64Digit (b1 / 4), base64Digit (b1 % 4 * 16)] ++ "=="
  | [b1, b2] =>
      String.mk [base64Digit (b1 / 4), base64Digit (b1 % 4 * 16 + b2 / 16),
                 base64Digit (b2 % 16 * 4)] ++ "="
  | b1 :: b2 :: b3 :: rest =>
      String.mk [base64Digit (b1 / 4), base64Digit (b1 % 4 * 16 + b2 / 16),
                 base64Digit (b2 % 16 * 4 + b3 / 64), base64Digit (b3 % 64)]
        ++ base64Chunks rest

/-- UTF-8 bytes of one character. -/
def utf8Bytes (c : Char) : List Nat :=
  let n := c.toNat
  if n < 128 then [n]
  else if n < 2048 then [192 + n / 64, 128 + n % 64]
  else if n < 65536 then [224 + n / 4096, 128 + n / 64 % 64, 128 + n % 64]
  else [240 + n / 262144, 128 + n / 4096 % 64, 128 + n / 64 % 64, 128 + n % 64]

/-- Base64 of a string's UTF-8 bytes. -/
def base64Encode (s : String) : String :=
  base64Chunks ((s.toList.map utf8Bytes).flatten)

/-! ## Error model (`client.go`: `APIError`, `FieldError`, `NewApiError`,
`Error`, `IsDuplicate`) -/

/-- ASCII lower-casing of a key, modelling the case-insensitive key
matching of `json.Unmarshal` (all keys in play are ASCII). -/
def lowerKey (s : String) : String :=
  String.mk (s.toList.map (fun c =>
    if 'A' ≤ c && c ≤ 'Z' then Char.ofNat (c.toNat + 32) else c))

/-- `FieldError`: one server-reported field problem.  `AdditionalInfo` is a
Go `map[string]interface\x7b\x7d`; its dynamic values are `Json` documents
(`Json.null` is Go `nil`). -/
structure FieldError where
  Field : String
  AdditionalInfo : List (String × Json)
  Message : String
  Code : String

/-- The zero `FieldError` (Go zero value: empty strings, nil map). -/
def FieldError.zero : FieldError :=
  { Field := "", AdditionalInfo := [], Message := "", Code := "" }

/-- `APIError`.  The Go struct's `Err error` field is carried as its
message text.  Note which fields carry a json tag in the source
(`description`, `errors`) and which are untagged exported fields
(`Err`, `ReqBody`, `ResBody`, `StatusCode`). -/
structure APIError where
  errMsg : String
  ReqBody : String
  ResBody : String
  Description : String
  Errors : List FieldError
  StatusCode : Int

/-- Assign one JSON object member to a `FieldError` during
`json.Unmarshal`: keys are matched to the field tags case-insensitively
(Go accepts a case-insensitive match); a value of the wrong type leaves
the field unchanged (the decode error is reported but the caller of
`NewApiError` discards it). -/
def assignFieldErrorKey (fe : FieldError) (k : String) (v : Json) : FieldError :=
  match lowerKey k, v with
  | "field", .str s => { fe with Field := s }
  | "message", .str s => { fe with Message := s }
  | "code", .str s => { fe with Code := s }
  | "additional_info", .obj ms => { fe with AdditionalInfo := toGoMap ms }
  | _, _ => fe

/-- Decode one element of the `errors` array into a `FieldError`
(non-objects decode to the zero value, the type error being discarded). -/
def decodeFieldError (j : Json) : FieldError :=
  match j with
  | .obj ms => ms.foldl (fun fe kv => assignFieldErrorKey fe kv.1 kv.2) FieldError.zero
  | _ => FieldError.zero

/-- Assign one JSON object member to an `APIError` during
`json.Unmarshal([]byte(res), i)`.  Tagged fields (`description`,
`errors`) match their tags; the untagged exported fields `ReqBody`,
`ResBody` and `StatusCode` match their own names — Go matches both kinds
case-insensitively.  `Err` has interface type `error`, into which decoding
always fails, leaving it unchanged. -/
def assignAPIErrorKey (e : APIError) (k : String) (v : Json) : APIError :=
  match lowerKey k, v with
  | "description", .str s => { e with Description := s }
  | "errors", .arr xs => { e with Errors := xs.map decodeFieldError }
  | "reqbody", .str s => { e with ReqBody := s }
  | "resbody", .str s => { e with ResBody := s }
  | "statuscode", .num n => { e with StatusCode := n }
  | _, _ => e

/-- `json.Unmarshal([]byte(res), i)` onto an `APIError`: syntactically
invalid input or a non-object document changes nothing; an object's
members are applied in order.  Any reported error is discarded by the
caller (`_ =`). -/
def unmarshalAPIError (e : APIError) (res : String) : APIError :=
  match parseFull res with
  | some (.obj ms) => ms.foldl (fun acc kv => assignAPIErrorKey acc kv.1 kv.2) e
  | _ => e

/-- `NewApiError` (client.go): build the base error, then best-effort
unmarshal the response payload onto it. -/
def NewApiError (statusCode expectedStatus : Int) (req res : String) : APIError :=
  unmarshalAPIError
    { errMsg := s!"received status code {statusCode} ({expectedStatus} expected)",
      ReqBody := req,
      ResBody := res,
      Description := "",
      Errors := [],
      StatusCode := statusCode }
    res

/-- `(*APIError).Error`. -/
def APIError.errorText (e : APIError) : String :=
  e.errMsg ++ " - " ++ e.ResBody

/-- Go's conversion `uint64(f)` for a nonnegative numeric value (negative
float-to-unsigned conversion is implementation-defined in Go and never
arises for the ids in play). -/
def uintOfNum (n : Int) : Nat :=
  n.toNat % 2 ^ 64

/-- The loop condition of `IsDuplicate`:
`err.Field == "email" && err.Code == "duplicate_value"`. -/
def isDupMatch (fe : FieldError) : Bool :=
  fe.Field = "email" && fe.Code = "duplicate_value"

/-- The loop body of `IsDuplicate`: scan the field errors in order.  A
result of `none` models a runtime panic: the unchecked type assertion
`userID.(float64)` faults when the first matching entry's `user_id` is
present and non-null but not a JSON number. -/
def isDupScan : List FieldError → Option (Bool × Nat)
  | [] => some (false, 0)
  | fe :: rest =>
      if isDupMatch fe then
        match goGet fe.AdditionalInfo "user_id" with
        | none => some (false, 0)
        | some .null => some (false, 0)
        | some (.num n) => some (true, uintOfNum n)
        | some _ => none
      else isDupScan rest

/-- `(*APIError).IsDuplicate` (client.go).  `none` models a panic. -/
def APIError.IsDuplicate (e : APIError) : Option (Bool × Nat) :=
  isDupScan e.Errors

/-! ## Transport core (`client.go`: `newRequest`, `do`, `Request.Payload`,
`Response.Payload`) -/

/-- A Go value handed to `newRequest` as the `body interface\x7b\x7d`
argument.  `jsonLike j` is any value whose `json.Marshal` output is the
document `j` (structs, maps, etc.); `bytes raw` is a Go `[]byte` — which
`json.Marshal` encodes as a base64 JSON *string*, not as the raw bytes;
`unsupported` is a value on which `json.Marshal` fails (channel, func,
cyclic value, ...). -/
inductive GoValue where
  | jsonLike (j : Json)
  | bytes (raw : String)
  | unsupported (msg : String)

/-- `json.Marshal(&body)` on the dynamic value held by the interface. -/
def marshalValue : GoValue → Except String String
  | .jsonLike j => .ok j.serialize
  | .bytes raw => .ok (Json.str (base64Encode raw)).serialize
  | .unsupported msg => .error msg

/-- The built outbound request: method, full URL, body bytes, and the
headers/credentials `newRequest` sets unconditionally. -/
structure HttpRequest where
  method : String
  url : String
  bodyBytes : String
  contentType : String
  basicUser : String
  basicPass : String
deriving DecidableEq

/-- `http.NewRequest` validity check on the method, elided to the verbs
this client uses (the full RFC 7230 token grammar is not needed: every
call site passes a standard constant verb). -/
def validMethod (m : String) : Bool :=
  m ≠ "" && m.toList.all (fun c => c.isAlpha)

/-- `(*client).newRequest` (client.go): an absent body becomes a
zero-length byte sequence; a present body is passed to `json.Marshal`,
whose failure propagates; the request gets basic auth (API key, literal
password "X") and the JSON content type. -/
def newRequest (apiKey baseURL method endpoint : String) (body : Option GoValue) :
    Except String HttpRequest :=
  match (match body with
         | none => Except.ok ""
         | some v => marshalValue v : Except String String) with
  | .error e => .error e
  | .ok b =>
      if validMethod method then
        .ok { method := method, url := baseURL ++ endpoint, bodyBytes := b,
              contentType := "application/json", basicUser := apiKey, basicPass := "X" }
      else
        .error "net/http: invalid method"

/-- `Request.Payload` / `Response.Payload` (client.go): read the whole
body, then `json.Compact` it; any failure yields the empty string. -/
def payloadOf (body : String) : String :=
  match parseFull body with
  | some j => j.serialize
  | none => ""

/-- An obtained HTTP response: observed status code and body bytes. -/
structure HTTPResponse where
  StatusCode : Int
  body : String

/-- Result of `(*client).do`.  `okDecoded`/`decodeErr` model
`json.NewDecoder(res.Body).Decode(out)` succeeding/failing (failure is a
plain error value, not an `APIError`); `okNoDecode` is the `out == nil`
path, which returns `nil` without touching the body. -/
inductive DoResult where
  | transportErr (e : String)
  | apiErr (e : APIError)
  | decodeErr
  | okDecoded (j : Json)
  | okNoDecode

/-- `(*client).do` (client.go).  `transport` is the outcome of
`c.httpClient.Do` (the injected retrying transport): either an error —
returned unchanged — or a response.  `reqBody` is the request's body
bytes as built by `newRequest`; by the time `do` inspects the status the
transport has already read that body stream to EOF to send it, so the
mismatch path's `req.Payload()` reads an exhausted stream: `io.ReadAll`
yields zero bytes and `json.Compact` of the empty input fails, giving
the empty string — hence `payloadOf ""` below, and the request body
bytes, though carried by the request, are unused past sending.
`outSupplied` is whether a decode target was passed. -/
def clientDo (transport : Except String HTTPResponse) (_reqBody : String)
    (outSupplied : Bool) (expectedStatus : Int) : DoResult :=
  match transport with
  | .error e => .transportErr e
  | .ok res =>
      if res.StatusCode ≠ expectedStatus then
        .apiErr (NewApiError res.StatusCode expectedStatus
          (payloadOf "") (payloadOf res.body))
      else if outSupplied then
        match parseHead res.body with
        | some j => .okDecoded j
        | none => .decodeErr
      else
        .okNoDecode

/-! ## The Contact resource (src/unnamed/part_000)

Field-for-field model of the Go `Contact` struct.  Go representation
choices: `uint64` is `Nat` (the range bound plays no role here);
`*string` is `Option String`; `*time.Time` is `Option String` carrying
the RFC3339 text (the interior of `time.Time` is opaque to this client);
slices are `Option (List _)` — `none` is a nil slice, which Go
distinguishes from an empty one; maps are association lists as above,
wrapped in `Option` for nil maps. -/
structure Contact where
  ID : Nat
  UniqueExternalID : String
  Active : Bool
  Deleted : Bool
  CreatedAt : Option String
  UpdatedAt : Option String
  ViewAllTickets : Bool
  Name : String
  JobTitle : Option String
  Description : Option String
  Address : Option String
  Email : String
  OtherEmails : Option (List String)
  Phone : Option String
  Mobile : Option String
  OtherPhones : Option (List (Option (List (String × String))))
  TwitterID : Option String
  TimeZone : Option String
  Language : Option String
  CompanyID : Option String
  OtherCompanies : Option (List (Option (List (String × String))))
  Tags : Option (List String)
  CustomFields : Option (List (String × Json))

/-- The zero `Contact` (Go zero value, the state `json.Unmarshal` starts
from). -/
def Contact.zero : Contact :=
  { ID := 0, UniqueExternalID := "", Active := false, Deleted := false,
    CreatedAt := none, UpdatedAt := none, ViewAllTickets := false, Name := "",
    JobTitle := none, Description := none, Address := none, Email := "",
    OtherEmails := none, Phone := none, Mobile := none, OtherPhones := none,
    TwitterID := none, TimeZone := none, Language := none, CompanyID := none,
    OtherCompanies := none, Tags := none, CustomFields := none }

/-- `omitempty` segment for a `uint64` field. -/
def encNatOmit (k : String) (n : Nat) : List (String × Json) :=
  if n = 0 then [] else [(k, .num n)]

/-- `omitempty` segment for a `string` field. -/
def encStrOmit (k : String) (s : String) : List (String × Json) :=
  if s = "" then [] else [(k, .str s)]

/-- Segment for a plain `bool` field (no `omitempty`). -/
def encBool (k : String) (b : Bool) : List (String × Json) :=
  [(k, .bool b)]

/-- `omitempty` segment for a `bool` field. -/
def encBoolOmit (k : String) (b : Bool) : List (String × Json) :=
  if b then [(k, .bool b)] else []

/-- `omitempty` segment for a pointer field (`*string`, `*time.Time`):
only a nil pointer is omitted. -/
def encOptStrOmit (k : String) : Option String → List (String × Json)
  | none => []
  | some s => [(k, .str s)]

/-- `omitempty` segment for a slice field: nil and empty slices are both
omitted. -/
def encSliceOmit {α : Type} (k : String) (enc : α → Json) :
    Option (List α) → List (String × Json)
  | none => []
  | some [] => []
  | some xs => [(k, .arr (xs.map enc))]

/-- Marshal of a `map[string]string` value: nil maps become `null`,
others an object in ascending key order. -/
def encMapSS : Option (List (String × String)) → Json
  | none => .null
  | some m => .obj ((sortPairs m).map (fun p => (p.1, .str p.2)))

/-- `omitempty` segment for the `map[string]interface\x7b\x7d` field. -/
def encMapOmit (k : String) : Option (List (String × Json)) → List (String × Json)
  | none => []
  | some [] => []
  | some m => [(k, .obj (sortPairs m))]

/-- `json.Marshal` of a `Contact`: members in struct order, with the
struct's tags and `omitempty` options. -/
def encodeContact (c : Contact) : Json :=
  .obj (encNatOmit "id" c.ID ++
    (encStrOmit "unique_external_id" c.UniqueExternalID ++
    (encBool "active" c.Active ++
    (encBoolOmit "deleted" c.Deleted ++
    (encOptStrOmit "created_at" c.CreatedAt ++
    (encOptStrOmit "updated_at" c.UpdatedAt ++
    (encBool "view_all_tickets" c.ViewAllTickets ++
    ([("name", Json.str c.Name)] ++
    (encOptStrOmit "job_title" c.JobTitle ++
    (encOptStrOmit "description" c.Description ++
    (encOptStrOmit "address" c.Address ++
    (encStrOmit "email" c.Email ++
    (encSliceOmit "other_emails" Json.str c.OtherEmails ++
    (encOptStrOmit "phone" c.Phone ++
    (encOptStrOmit "mobile" c.Mobile ++
    (encSliceOmit "other_phone_numbers" encMapSS c.OtherPhones ++
    (encOptStrOmit "twitter_id" c.TwitterID ++
    (encOptStrOmit "time_zone" c.TimeZone ++
    (encOptStrOmit "language" c.Language ++
    (encOptStrOmit "company_id" c.CompanyID ++
    (encSliceOmit "other_companies" encMapSS c.OtherCompanies ++
    (encSliceOmit "tags" Json.str c.Tags ++
    encMapOmit "custom_fields" c.CustomFields))))))))))))))))))))))

/-- Sequential element-wise decoding of a JSON array, as `encoding/json`
decodes into a Go slice (first failure aborts). -/
def mapMOpt {α β : Type} (f : α → Option β) : List α → Option (List β)
  | [] => some []
  | x :: xs => (f x).bind (fun y => (mapMOpt f xs).map (fun ys => y :: ys))

/-- Decode a JSON value as a `string`. -/
def decStrVal : Json → Option String
  | .str s => some s
  | _ => none

/-- Decode a JSON value as a `map[string]string` (nil for `null`). -/
def decMapSS : Json → Option (Option (List (String × String)))
  | .null => some none
  | .obj ms => (mapMOpt (fun kv => (decStrVal kv.2).map (fun s => (kv.1, s))) ms).map
      (fun l => some (toGoMap l))
  | _ => none

/-- Apply one JSON object member to a partially decoded `Contact`,
mirroring `json.Unmarshal`'s sequential field assignment: a `null` value
sets pointer/slice/map fields to nil and is a no-op on scalar fields; a
value of the wrong type is a decode error (`none`); unknown keys are
ignored.  (Go would additionally accept case-insensitive key matches;
the exact tags suffice for everything proved here.) -/
def assignContactKey (c : Contact) (kv : String × Json) : Option Contact :=
  match kv.1, kv.2 with
  | "id", .num n => if 0 ≤ n then some { c with ID := n.toNat } else none
  | "id", .null => some c
  | "id", _ => none
  | "unique_external_id", .str s => some { c with UniqueExternalID := s }
  | "unique_external_id", .null => some c
  | "unique_external_id", _ => none
  | "active", .bool b => some { c with Active := b }
  | "active", .null => some c
  | "active", _ => none
  | "deleted", .bool b => some { c with Deleted := b }
  | "deleted", .null => some c
  | "deleted", _ => none
  | "created_at", .str s => some { c with CreatedAt := some s }
  | "created_at", .null => some { c with CreatedAt := none }
  | "created_at", _ => none
  | "updated_at", .str s => some { c with UpdatedAt := some s }
  | "updated_at", .null => some { c with UpdatedAt := none }
  | "updated_at", _ => none
  | "view_all_tickets", .bool b => some { c with ViewAllTickets := b }
  | "view_all_tickets", .null => some c
  | "view_all_tickets", _ => none
  | "name", .str s => some { c with Name := s }
  | "name", .null => some c
  | "name", _ => none
  | "job_title", .str s => some { c with JobTitle := some s }
  | "job_title", .null => some { c with JobTitle := none }
  | "job_title", _ => none
  | "description", .str s => some { c with Description := some s }
  | "description", .null => some { c with Description := none }
  | "description", _ => none
  | "address", .str s => some { c with Address := some s }
  | "address", .null => some { c with Address := none }
  | "address", _ => none
  | "email", .str s => some { c with Email := s }
  | "email", .null => some c
  | "email", _ => none
  | "other_emails", .arr xs =>
      (mapMOpt decStrVal xs).map (fun l => { c with OtherEmails := some l })
  | "other_emails", .null => some { c with OtherEmails := none }
  | "other_emails", _ => none
  | "phone", .str s => some { c with Phone := some s }
  | "phone", .null => some { c with Phone := none }
  | "phone", _ => none
  | "mobile", .str s => some { c with Mobile := some s }
  | "mobile", .null => some { c with Mobile := none }
  | "mobile", _ => none
  | "other_phone_numbers", .arr xs =>
      (mapMOpt decMapSS xs).map (fun l => { c with OtherPhones := some l })
  | "other_phone_numbers", .null => some { c with OtherPhones := none }
  | "other_phone_numbers", _ => none
  | "twitter_id", .str s => some { c with TwitterID := some s }
  | "twitter_id", .null => some { c with TwitterID := none }
  | "twitter_id", _ => none
  | "time_zone", .str s => some { c with TimeZone := some s }
  | "time_zone", .null => some { c with TimeZone := none }
  | "time_zone", _ => none
  | "language", .str s => some { c with Language := some s }
  | "language", .null => some { c with Language := none }
  | "language", _ => none
  | "company_id", .str s => some { c with CompanyID := some s }
  | "company_id", .null => some { c with CompanyID := none }
  | "company_id", _ => none
  | "other_companies", .arr xs =>
      (mapMOpt decMapSS xs).map (fun l => { c with OtherCompanies := some l })
  | "other_companies", .null => some { c with OtherCompanies := none }
  | "other_companies", _ => none
  | "tags", .arr xs =>
      (mapMOpt decStrVal xs).map (fun l => { c with Tags := some l })
  | "tags", .null => some { c with Tags := none }
  | "tags", _ => none
  | "custom_fields", .obj ms => some { c with CustomFields := some (toGoMap ms) }
  | "custom_fields", .null => some { c with CustomFields := none }
  | "custom_fields", _ => none
  | _, _ => some c

/-- `json.Unmarshal` of a `Contact`: start from the zero value and apply
the object's members in order. -/
def decodeContact : Json → Option Contact
  | .obj ms => ms.foldlM assignContactKey Contact.zero
  | _ => none

/-- A slice field that is not empty-but-non-nil (`omitempty` erases the
difference between nil and empty on the wire). -/
def sliceCanon {α : Type} : Option (List α) → Bool
  | some [] => false
  | _ => true

/-- A map in canonical association-list form: strictly ascending keys. -/
def mapEntriesCanon {α : Type} (o : Option (List (String × α))) : Bool :=
  match o with
  | none => true
  | some m => keysStrictSorted m

/-- Canonical form of a slice of `map[string]string` values. -/
def mapSliceCanon (o : Option (List (Option (List (String × String))))) : Bool :=
  match o with
  | none => true
  | some [] => false
  | some xs => xs.all mapEntriesCanon

/-- A `Contact` in canonical form: no empty-but-non-nil collections (the
wire cannot represent them under `omitempty`), and association lists in
the unique (sorted, duplicate-free) form denoting their Go map. -/
def Contact.canonical (c : Contact) : Bool :=
  sliceCanon c.OtherEmails && mapSliceCanon c.OtherPhones &&
  mapSliceCanon c.OtherCompanies && sliceCanon c.Tags &&
  sliceCanon c.CustomFields && mapEntriesCanon c.CustomFields

/-! ## Contacts resource client operations (src/unnamed/part_000) -/

/-- The body struct marshalled by `HardDelete`: `\x7bid, force\x7d`. -/
def hardDeleteParams (id : Nat) (force : Bool) : Json :=
  .obj [("id", .num id), ("force", .bool force)]

/-- `(*contactsClient).HardDelete`: pre-marshals `hardDeleteParams` to a
`[]byte` and passes those bytes as the `body interface\x7b\x7d` argument
of `newRequest` — which marshals them *again*. -/
def contactsHardDeleteReq (apiKey baseURL : String) (id : Nat) (force : Bool) :
    Except String HttpRequest :=
  newRequest apiKey baseURL "DELETE" (s!"contacts/{id}/hard_delete")
    (some (.bytes (hardDeleteParams id force).serialize))

/-- The body struct marshalled by `Merge`: primary id, secondary ids, and
the optional contact attribute overrides (`omitempty` pointer). -/
def mergeParams (primaryID : Nat) (secondaryIDs : Option (List Nat))
    (attrs : Option Contact) : Json :=
  .obj ([("primary_contact_id", .num primaryID),
         ("secondary_contact_ids",
           match secondaryIDs with
           | none => .null
           | some xs => .arr (xs.map (fun n => .num n)))] ++
        (match attrs with
         | none => []
         | some c => [("contact", encodeContact c)]))

/-- `(*contactsClient).Merge`: like `HardDelete`, pre-marshals its params
and passes the resulting `[]byte` through `newRequest`. -/
def contactsMergeReq (apiKey baseURL : String) (primaryID : Nat)
    (secondaryIDs : Option (List Nat)) (attrs : Option Contact) :
    Except String HttpRequest :=
  newRequest apiKey baseURL "POST" "contacts/merge"
    (some (.bytes (mergeParams primaryID secondaryIDs attrs).serialize))

/-- Decidable equality of request-building outcomes, for evaluating the
model on concrete inputs. -/
instance : DecidableEq (Except String HttpRequest) := fun a b =>
  match a, b with
  | .ok x, .ok y =>
      if h : x = y then isTrue (by rw [h]) else isFalse (by simp [h])
  | .error x, .error y =>
      if h : x = y then isTrue (by rw [h]) else isFalse (by simp [h])
  | .ok _, .error _ => isFalse (by simp)
  | .error _, .ok _ => isFalse (by simp)

/-- Body bytes of a built request, `none` when building failed. -/
def builtBody : Except String HttpRequest → Option String
  | .ok r => some r.bodyBytes
  | .error _ => none

/-! ## Supporting definitions for the statements below -/

/-- The status code carried by an `APIError` outcome of `do`, if any. -/
def apiStatusOf : DoResult → Option Int
  | .apiErr e => some e.StatusCode
  | _ => none

/-- A duplicate-email field error carrying no `user_id`. -/
def dupNoUid : FieldError :=
  { Field := "email", AdditionalInfo := [], Message := "already taken",
    Code := "duplicate_value" }

/-- A duplicate-email field error carrying `user_id` 5. -/
def dupUid5 : FieldError :=
  { Field := "email", AdditionalInfo := [("user_id", Json.num 5)],
    Message := "already taken", Code := "duplicate_value" }

/-- A duplicate-email field error whose `user_id` decoded as a JSON
string, not a number. -/
def dupStrUid : FieldError :=
  { Field := "email", AdditionalInfo := [("user_id", Json.str "42")],
    Message := "already taken", Code := "duplicate_value" }

/-- A field error on an unrelated field. -/
def feUnrelated : FieldError :=
  { Field := "name", AdditionalInfo := [], Message := "too short",
    Code := "invalid_value" }

/-- An `APIError` with the given field errors (the other attributes do
not influence `IsDuplicate`). -/
def mkAPIErrorWith (errs : List FieldError) : APIError :=
  { errMsg := "", ReqBody := "", ResBody := "", Description := "",
    Errors := errs, StatusCode := 400 }

/-- A contact whose `OtherEmails` is an empty (but non-nil) slice. -/
def contactEmptyOtherEmails : Contact :=
  { Contact.zero with OtherEmails := some [] }

/-- A canonical sample contact exercising scalar, pointer, slice and map
fields. -/
def contactSample : Contact :=
  { Contact.zero with
    ID := 7, Name := "Al", Email := "a@b.c", Deleted := true,
    JobTitle := some "", OtherEmails := some ["x@y.z"],
    OtherPhones := some [none, some [("a", "1"), ("b", "2")]],
    CustomFields := some [("k1", Json.num 3), ("k2", Json.arr [Json.null])] }

/-! ## Claim theorems -/

/-- C7: for every execution of `do` in which the underlying transport
fails and no response is obtained, the transport's error value is
returned to the caller unchanged — never wrapped into or replaced by a
Structured API Error. -/
theorem do_transport_failure_propagates_unchanged (e : String) (reqBody : String)
    (outSupplied : Bool) (expectedStatus : Int) :
    clientDo (Except.error e) reqBody outSupplied expectedStatus =
      DoResult.transportErr e := rfl

/-- C5, divergence at the failing input: `NewApiError` does always return
a constructed error, but it does *not* always retain its base state.  On
response payload `\x7b"StatusCode":5\x7d` (valid JSON without
`description`/`errors` members), `json.Unmarshal([]byte(res), i)` matches
the object's `StatusCode` key to the untagged exported `StatusCode` field
and overwrites the observed status code 404 with 5. -/
theorem newApiError_overwrites_base_state :
    (NewApiError 404 200 "" ((Json.obj [("StatusCode", Json.num 5)]).serialize)).StatusCode
        = 5
      ∧ ((5 : Int) ≠ 404) := by
  constructor
  · decide
  · decide

/-- C1, divergence at the failing input: a mismatched-status execution of
`do` (observed 404, expected 200) whose response body is
`\x7b"StatusCode":1\x7d` returns a Structured API Error whose
`StatusCode` field is 1 — the response JSON overwrote it during the
best-effort unmarshal — not the observed code 404. -/
theorem do_mismatch_statuscode_not_observed :
    apiStatusOf (clientDo
        (Except.ok { StatusCode := 404,
                     body := (Json.obj [("StatusCode", Json.num 1)]).serialize })
        "" true 200)
      = some 1 ∧ ((1 : Int) ≠ 404) := by
  constructor
  · decide
  · decide

/-- C2, divergence at the failing input: `HardDelete(1, true)` and
`Merge(1, [2], nil)` pre-marshal their params to `[]byte` and hand the
bytes to `newRequest`, which runs `json.Marshal` *again*; Go marshals a
`[]byte` as a base64 JSON string, so the wire body is
`"eyJpZCI6MSwiZm9yY2UiOnRydWV9"` (the base64 of
`\x7b"id":1,"force":true\x7d` in quotes), not the documented JSON
object — and likewise for the merge body. -/
theorem hardDelete_merge_wire_body_double_encoded :
    builtBody (contactsHardDeleteReq "key" "https://sub.freshdesk.com/api/v2/" 1 true)
        = some "\"eyJpZCI6MSwiZm9yY2UiOnRydWV9\""
      ∧ builtBody (contactsHardDeleteReq "key" "https://sub.freshdesk.com/api/v2/" 1 true)
        ≠ some ((hardDeleteParams 1 true).serialize)
      ∧ builtBody (contactsMergeReq "key" "https://sub.freshdesk.com/api/v2/" 1 (some [2]) none)
        = some "\"eyJwcmltYXJ5X2NvbnRhY3RfaWQiOjEsInNlY29uZGFyeV9jb250YWN0X2lkcyI6WzJdfQ==\""
      ∧ builtBody (contactsMergeReq "key" "https://sub.freshdesk.com/api/v2/" 1 (some [2]) none)
        ≠ some ((mergeParams 1 (some [2]) none).serialize) := by
  refine ⟨by decide, by decide, by decide, by decide⟩

/-- C4: for every execution of `do` in which the observed status equals
the expected status, no Structured API Error is constructed regardless of
the body: with no decode target the call returns a nil error without
touching the body; with a decode target, a JSON decode failure propagates
as a plain (non-API) error, and a decode success returns nil. -/
theorem do_status_match_never_api_error (res : HTTPResponse) (reqBody : String)
    (outSupplied : Bool) (expectedStatus : Int)
    (h : res.StatusCode = expectedStatus) :
    (∀ e, clientDo (Except.ok res) reqBody outSupplied expectedStatus ≠ DoResult.apiErr e)
      ∧ (outSupplied = false →
          clientDo (Except.ok res) reqBody outSupplied expectedStatus = DoResult.okNoDecode)
      ∧ (outSupplied = true → parseHead res.body = none →
          clientDo (Except.ok res) reqBody outSupplied expectedStatus = DoResult.decodeErr)
      ∧ (outSupplied = true → ∀ j, parseHead res.body = some j →
          clientDo (Except.ok res) reqBody outSupplied expectedStatus = DoResult.okDecoded j) := by
  have hcond : ¬(res.StatusCode ≠ expectedStatus) := by simp [h]
  refine ⟨?_, ?_, ?_, ?_⟩
  · intro e
    simp only [clientDo, if_neg hcond]
    cases outSupplied with
    | false => simp
    | true =>
      simp only [if_pos rfl]
      cases hp : parseHead res.body <;> simp
  · intro ho; subst ho
    simp [clientDo, if_neg hcond]
  · intro ho hp; subst ho
    simp [clientDo, if_neg hcond, hp]
  · intro ho j hp; subst ho
    simp [clientDo, if_neg hcond, hp]

/-- C4 witness: concrete matching-status executions — no decode target
gives a nil error; an unparsable body with a decode target gives a plain
decode error; neither is an API error. -/
theorem do_status_match_never_api_error_witness :
    clientDo (Except.ok { StatusCode := 200, body := "" }) "" false 200 = DoResult.okNoDecode
      ∧ clientDo (Except.ok { StatusCode := 200, body := "not json" }) "" true 200
          = DoResult.decodeErr
      ∧ ∀ e, clientDo (Except.ok { StatusCode := 200, body := "not json" }) "" true 200
          ≠ DoResult.apiErr e := by
  refine ⟨?_, ?_, ?_⟩
  · exact (do_status_match_never_api_error { StatusCode := 200, body := "" } "" false 200
      rfl).2.1 rfl
  · exact (do_status_match_never_api_error { StatusCode := 200, body := "not json" } "" true 200
      rfl).2.2.1 rfl (Option.isNone_iff_eq_none.mp (by decide))
  · exact (do_status_match_never_api_error { StatusCode := 200, body := "not json" } "" true 200
      rfl).1

/-- C6: `newRequest` encodes an absent body as a zero-length byte
sequence (neither `null` nor an empty JSON object); a marshaling failure
of a present body propagates with no request produced; and every
successfully built request carries the `Content-Type: application/json`
header and HTTP Basic credentials (API key as username, literal "X" as
password). -/
theorem newRequest_body_and_headers (apiKey baseURL method endpoint : String) :
    (∀ r, newRequest apiKey baseURL method endpoint none = Except.ok r →
        r.bodyBytes = "" ∧ r.bodyBytes ≠ "null" ∧ r.bodyBytes ≠ (Json.obj []).serialize)
      ∧ (∀ v msg, marshalValue v = Except.error msg →
          newRequest apiKey baseURL method endpoint (some v) = Except.error msg)
      ∧ (∀ body r, newRequest apiKey baseURL method endpoint body = Except.ok r →
          r.contentType = "application/json" ∧ r.basicUser = apiKey ∧ r.basicPass = "X") := by
  refine ⟨?_, ?_, ?_⟩
  · intro r h
    simp only [newRequest] at h
    by_cases hv : validMethod method = true
    · rw [if_pos hv] at h
      cases h
      refine ⟨rfl, by simp +decide, by simp +decide⟩
    · rw [if_neg hv] at h
      cases h
  · intro v msg h
    simp only [newRequest, h]
  · intro body r h
    cases body with
    | none =>
      simp only [newRequest] at h
      by_cases hv : validMethod method = true
      · rw [if_pos hv] at h
        cases h
        exact ⟨rfl, rfl, rfl⟩
      · rw [if_neg hv] at h
        cases h
    | some v =>
      cases hm : marshalValue v with
      | ok b =>
        simp only [newRequest, hm] at h
        by_cases hv : validMethod method = true
        · rw [if_pos hv] at h
          cases h
          exact ⟨rfl, rfl, rfl⟩
        · rw [if_neg hv] at h
          cases h
      | error msg =>
        simp only [newRequest, hm] at h
        cases h

/-- C6 witness: a concrete GET with no body has empty body bytes and the
unconditional header/credentials; a value that cannot be marshalled makes
the whole request fail with that error. -/
theorem newRequest_body_and_headers_witness :
    (HttpRequest.bodyBytes
        { method := "GET", url := "https://sub.freshdesk.com/api/v2/contacts",
          bodyBytes := "", contentType := "application/json",
          basicUser := "key", basicPass := "X" } = ""
      ∧ HttpRequest.contentType
        { method := "GET", url := "https://sub.freshdesk.com/api/v2/contacts",
          bodyBytes := "", contentType := "application/json",
          basicUser := "key", basicPass := "X" } = "application/json")
      ∧ newRequest "key" "https://sub.freshdesk.com/api/v2/" "GET" "contacts"
          (some (GoValue.unsupported "json: unsupported type: chan int"))
        = Except.error "json: unsupported type: chan int" := by
  constructor
  · constructor
    · exact ((newRequest_body_and_headers "key" "https://sub.freshdesk.com/api/v2/"
        "GET" "contacts").1 _ (by decide)).1
    · exact ((newRequest_body_and_headers "key" "https://sub.freshdesk.com/api/v2/"
        "GET" "contacts").2.2 none _ (by decide)).1
  · exact (newRequest_body_and_headers "key" "https://sub.freshdesk.com/api/v2/"
      "GET" "contacts").2.1 (GoValue.unsupported "json: unsupported type: chan int")
      "json: unsupported type: chan int" rfl

/-- The scan of `IsDuplicate` ignores entries before the first match. -/
theorem isDupScan_append_nomatch (pre l : List FieldError)
    (hpre : ∀ x ∈ pre, isDupMatch x = false) :
    isDupScan (pre ++ l) = isDupScan l := by
  induction pre with
  | nil => rfl
  | cons fe rest ih =>
    have h1 : isDupMatch fe = false := hpre fe (by simp)
    simp only [List.cons_append, isDupScan, h1, Bool.false_eq_true, if_false]
    exact ih (fun x hx => hpre x (by simp [hx]))

/-- C3 counterexample: the errors list
`[\x7bemail, duplicate_value, no additional_info\x7d,
\x7bemail, duplicate_value, user_id: 5\x7d]` *contains* a field error
with field "email", code "duplicate_value" and a present non-null
`user_id`, yet `IsDuplicate` returns `(false, 0)`: the existential
reading of the claim is false — the scan stops at the first matching
entry. -/
theorem isDuplicate_exists_reading_false :
    (mkAPIErrorWith [dupNoUid, dupUid5]).IsDuplicate = some (false, 0)
      ∧ dupUid5 ∈ (mkAPIErrorWith [dupNoUid, dupUid5]).Errors
      ∧ dupUid5.Field = "email" ∧ dupUid5.Code = "duplicate_value"
      ∧ goGet dupUid5.AdditionalInfo "user_id" = some (Json.num 5)
      ∧ (mkAPIErrorWith [dupNoUid, dupUid5]).IsDuplicate ≠ some (true, 5) := by
  refine ⟨by decide, by simp [mkAPIErrorWith], rfl, rfl, rfl, by decide⟩

/-- C3 (amended): `IsDuplicate` is determined by the *first* field error
whose field is "email" and code is "duplicate_value": it returns
`(true, uint64(user_id))` iff that first matching entry has a present,
non-null, numeric `user_id`; it returns `(false, 0)` when no entry
matches or the first matching entry's `user_id` is absent or null; and it
panics (`none`) when that `user_id` is present, non-null and not a
number. -/
theorem isDuplicate_first_match_semantics (E : APIError) :
    E.IsDuplicate =
      match E.Errors.find? isDupMatch with
      | none => some (false, 0)
      | some fe =>
        match goGet fe.AdditionalInfo "user_id" with
        | none => some (false, 0)
        | some Json.null => some (false, 0)
        | some (Json.num n) => some (true, uintOfNum n)
        | some _ => none := by
  show isDupScan E.Errors = _
  induction E.Errors with
  | nil => rfl
  | cons fe rest ih =>
    by_cases hm : isDupMatch fe = true
    · rw [List.find?_cons_of_pos _ hm]
      simp only [isDupScan, hm, if_true]
    · rw [List.find?_cons_of_neg _ (by simpa using hm)]
      simp only [isDupScan, hm, if_false]
      exact ih

/-- C9: `IsDuplicate` short-circuits — with any prefix of non-matching
entries, a first matching entry whose `user_id` is absent or null makes
the call return `(false, 0)` immediately, whatever follows (including
later matching entries that do carry a usable `user_id`). -/
theorem isDuplicate_stops_at_first_match (E : APIError) (pre rest : List FieldError)
    (fe : FieldError) (hE : E.Errors = pre ++ fe :: rest)
    (hpre : ∀ x ∈ pre, isDupMatch x = false)
    (hfe : isDupMatch fe = true)
    (huid : goGet fe.AdditionalInfo "user_id" = none ∨
            goGet fe.AdditionalInfo "user_id" = some Json.null) :
    E.IsDuplicate = some (false, 0) := by
  show isDupScan E.Errors = _
  rw [hE, isDupScan_append_nomatch pre _ hpre]
  simp only [isDupScan, hfe, if_true]
  rcases huid with h | h <;> rw [h]

/-- C9 witness: an unrelated entry, then a matching entry without
`user_id`, then a matching entry carrying `user_id` 5 — the result is
still `(false, 0)`. -/
theorem isDuplicate_stops_at_first_match_witness :
    (mkAPIErrorWith [feUnrelated, dupNoUid, dupUid5]).IsDuplicate = some (false, 0) :=
  isDuplicate_stops_at_first_match _ [feUnrelated] [dupUid5] dupNoUid rfl
    (by decide) rfl (Or.inl rfl)

/-- C10: the extraction of the user id uses the unchecked type assertion
`userID.(float64)`: for every errors list whose first matching entry —
after any prefix of entries whose field or code differ — has `user_id`
present and non-null but not a JSON number, the call faults (modelled
`none`) instead of returning; when that `user_id` is a number `n`, the
call returns `(true, uint64(n))` — the assertion is safe exactly under
that precondition. -/
theorem isDuplicate_panics_on_non_number (E : APIError) (pre rest : List FieldError)
    (fe : FieldError) (hE : E.Errors = pre ++ fe :: rest)
    (hpre : ∀ x ∈ pre, isDupMatch x = false)
    (hfe : isDupMatch fe = true) (v : Json)
    (hv : goGet fe.AdditionalInfo "user_id" = some v) :
    ((∀ n : Int, v ≠ Json.num n) → v ≠ Json.null → E.IsDuplicate = none)
      ∧ (∀ n : Int, v = Json.num n → E.IsDuplicate = some (true, uintOfNum n)) := by
  constructor
  · intro hnum hnull
    show isDupScan E.Errors = none
    rw [hE, isDupScan_append_nomatch pre _ hpre]
    cases v with
    | null => exact absurd rfl hnull
    | num n => exact absurd rfl (hnum n)
    | bool b => simp only [isDupScan, hfe, if_true, hv]
    | str s => simp only [isDupScan, hfe, if_true, hv]
    | arr xs => simp only [isDupScan, hfe, if_true, hv]
    | obj ms => simp only [isDupScan, hfe, if_true, hv]
  · intro n hn
    subst hn
    show isDupScan E.Errors = _
    rw [hE, isDupScan_append_nomatch pre _ hpre]
    simp only [isDupScan, hfe, if_true, hv]

/-- C10 witness: after an unrelated entry, a first matching entry whose
`user_id` decoded as the JSON string `"42"` faults; a numeric `user_id`
5 returns `(true, 5)`. -/
theorem isDuplicate_panics_on_non_number_witness :
    (mkAPIErrorWith [feUnrelated, dupStrUid]).IsDuplicate = none
      ∧ (mkAPIErrorWith [dupUid5]).IsDuplicate = some (true, uintOfNum 5) := by
  constructor
  · exact (isDuplicate_panics_on_non_number _ [feUnrelated] [] dupStrUid rfl (by decide)
      rfl (Json.str "42") rfl).1
      (fun n h => Json.noConfusion h) (fun h => Json.noConfusion h)
  · exact (isDuplicate_panics_on_non_number _ [] [] dupUid5 rfl (by decide)
      rfl (Json.num 5) rfl).2 5 rfl

/-- Splitting a strictly-sorted head. -/
theorem strictSorted_cons {α : Type} (p q : String × α) (rest : List (String × α))
    (h : keysStrictSorted (p :: q :: rest) = true) :
    strLtB p.1 q.1 = true ∧ keysStrictSorted (q :: rest) = true := by
  simpa [keysStrictSorted, Bool.and_eq_true] using h

/-- Lexicographic comparison is transitive. -/
theorem charListLt_trans : ∀ (a b c : List Char),
    charListLt a b = true → charListLt b c = true → charListLt a c = true
  | [], [], _, h1, _ => by simp [charListLt] at h1
  | [], _ :: _, [], _, h2 => by simp [charListLt] at h2
  | [], _ :: _, _ :: _, _, _ => by simp [charListLt]
  | _ :: _, [], _, h1, _ => by simp [charListLt] at h1
  | _ :: _, _ :: _, [], _, h2 => by simp [charListLt] at h2
  | x :: as, y :: bs, z :: cs, h1, h2 => by
      simp only [charListLt] at h1 h2 ⊢
      by_cases hxy : x.toNat < y.toNat
      · by_cases hyz : y.toNat < z.toNat
        · rw [if_pos (Nat.lt_trans hxy hyz)]
        · rw [if_neg hyz] at h2
          by_cases hzy : z.toNat < y.toNat
          · rw [if_pos hzy] at h2
            exact absurd h2 (by simp)
          · rw [if_pos (show x.toNat < z.toNat by omega)]
      · rw [if_neg hxy] at h1
        by_cases hyx : y.toNat < x.toNat
        · rw [if_pos hyx] at h1
          exact absurd h1 (by simp)
        · rw [if_neg hyx] at h1
          by_cases hyz : y.toNat < z.toNat
          · rw [if_pos (show x.toNat < z.toNat by omega)]
          · rw [if_neg hyz] at h2
            by_cases hzy : z.toNat < y.toNat
            · rw [if_pos hzy] at h2
              exact absurd h2 (by simp)
            · rw [if_neg hzy] at h2
              rw [if_neg (show ¬x.toNat < z.toNat by omega),
                  if_neg (show ¬z.toNat < x.toNat by omega)]
              exact charListLt_trans as bs cs h1 h2

/-- Lexicographic comparison is irreflexive. -/
theorem charListLt_irrefl : ∀ (a : List Char), charListLt a a = false
  | [] => rfl
  | x :: as => by
      simp only [charListLt]
      rw [if_neg (Nat.lt_irrefl x.toNat), if_neg (Nat.lt_irrefl x.toNat)]
      exact charListLt_irrefl as

/-- `strLtB` is transitive. -/
theorem strLtB_trans (a b c : String) (h1 : strLtB a b = true)
    (h2 : strLtB b c = true) : strLtB a c = true :=
  charListLt_trans _ _ _ h1 h2

/-- `strLtB` separates its arguments. -/
theorem strLtB_ne (a b : String) (h : strLtB a b = true) : a ≠ b := by
  intro he
  subst he
  simp [strLtB, charListLt_irrefl] at h

/-- A strictly key-sorted list is a fixed point of the insertion sort
used to model Go's sorted map serialization. -/
theorem sortPairs_eq_self {α : Type} :
    ∀ (m : List (String × α)), keysStrictSorted m = true → sortPairs m = m
  | [], _ => rfl
  | [_], _ => rfl
  | p :: q :: rest, h => by
      have h1 := strictSorted_cons p q rest h
      have ih := sortPairs_eq_self (q :: rest) h1.2
      show insertSorted p (sortPairs (q :: rest)) = p :: q :: rest
      rw [ih]
      simp [insertSorted, h1.1]

/-- The head key of a strictly-sorted list is below every later key. -/
theorem strictSorted_head_lt {α : Type} :
    ∀ (p : String × α) (rest : List (String × α)),
      keysStrictSorted (p :: rest) = true → ∀ q ∈ rest, strLtB p.1 q.1 = true
  | _, [], _, q, hq => absurd hq (List.not_mem_nil q)
  | p, r :: rest2, h, q, hq => by
      have h1 := strictSorted_cons p r rest2 h
      rcases List.mem_cons.mp hq with rfl | hq2
      · exact h1.1
      · exact strLtB_trans _ _ _ h1.1 (strictSorted_head_lt r rest2 h1.2 q hq2)

/-- Strict sortedness passes to the tail. -/
theorem strictSorted_tail {α : Type} (p : String × α) (rest : List (String × α))
    (h : keysStrictSorted (p :: rest) = true) : keysStrictSorted rest = true := by
  cases rest with
  | nil => rfl
  | cons r rest2 => exact (strictSorted_cons p r rest2 h).2

/-- Strictly sorted keys are duplicate-free. -/
theorem strictSorted_keys_nodup {α : Type} :
    ∀ (m : List (String × α)), keysStrictSorted m = true → (m.map Prod.fst).Nodup
  | [], _ => List.nodup_nil
  | p :: rest, h => by
      refine List.nodup_cons.mpr
        ⟨?_, strictSorted_keys_nodup rest (strictSorted_tail p rest h)⟩
      intro hmem
      rcases List.mem_map.mp hmem with ⟨q, hq, hfst⟩
      exact (strLtB_ne _ _ (strictSorted_head_lt p rest h q hq)) hfst.symm

/-- Inserting a fresh key into a Go map appends it. -/
theorem insertRep_of_not_mem {α : Type} :
    ∀ (acc : List (String × α)) (k : String) (v : α),
      (∀ p ∈ acc, p.1 ≠ k) → insertRep acc k v = acc ++ [(k, v)]
  | [], _, _, _ => rfl
  | q :: rest, k, v, h => by
      have hq : q.1 ≠ k := h q (by simp)
      simp only [insertRep, if_neg hq]
      rw [insertRep_of_not_mem rest k v (fun p hp => h p (by simp [hp]))]
      rfl

/-- Building a Go map from duplicate-free members keeps them verbatim. -/
theorem foldl_insertRep_nodup {α : Type} :
    ∀ (m acc : List (String × α)), ((acc ++ m).map Prod.fst).Nodup →
      m.foldl (fun m2 kv => insertRep m2 kv.1 kv.2) acc = acc ++ m
  | [], acc, _ => by simp
  | kv :: m2, acc, h => by
      have hsplit := List.nodup_append.mp (by simpa [List.map_append] using h)
      have hnotin : ∀ p ∈ acc, p.1 ≠ kv.1 := by
        intro p hp heq
        exact hsplit.2.2 (List.mem_map_of_mem Prod.fst hp)
          (by simp [heq])
      have step : insertRep acc kv.1 kv.2 = acc ++ [kv] := by
        rw [insertRep_of_not_mem acc kv.1 kv.2 hnotin]
      show List.foldl _ (insertRep acc kv.1 kv.2) m2 = acc ++ kv :: m2
      rw [step]
      have h2 : (((acc ++ [kv]) ++ m2).map Prod.fst).Nodup := by
        simpa [List.append_assoc] using h
      rw [foldl_insertRep_nodup m2 (acc ++ [kv]) h2]
      simp

/-- `toGoMap` on duplicate-free members is the identity. -/
theorem toGoMap_eq_self {α : Type} (m : List (String × α))
    (h : (m.map Prod.fst).Nodup) : toGoMap m = m := by
  have := foldl_insertRep_nodup m [] (by simpa using h)
  simpa [toGoMap] using this

/-- Decoding the encoding of a string slice. -/
theorem mapMOpt_decStr :
    ∀ (xs : List String), mapMOpt decStrVal (xs.map Json.str) = some xs
  | [] => rfl
  | x :: xs => by
      simp [mapMOpt, decStrVal, mapMOpt_decStr xs]

/-- Decoding the encoding of string-valued object members. -/
theorem mapMOpt_pairStr :
    ∀ (m : List (String × String)),
      mapMOpt (fun kv => (decStrVal kv.2).map (fun s => (kv.1, s)))
        (m.map (fun p => (p.1, Json.str p.2))) = some m
  | [] => rfl
  | p :: m2 => by
      simp only [List.map_cons, mapMOpt]
      rw [mapMOpt_pairStr m2]
      simp [decStrVal]

/-- Decoding the encoding of a `map[string]string` value in canonical
form gives the value back. -/
theorem decMapSS_encMapSS (mm : Option (List (String × String)))
    (h : mapEntriesCanon mm = true) : decMapSS (encMapSS mm) = some mm := by
  cases mm with
  | none => rfl
  | some m =>
    have hs : keysStrictSorted m = true := by simpa [mapEntriesCanon] using h
    show decMapSS (Json.obj ((sortPairs m).map (fun p => (p.1, Json.str p.2)))) = _
    rw [sortPairs_eq_self m hs]
    show (mapMOpt (fun kv => (decStrVal kv.2).map (fun s => (kv.1, s)))
        (m.map (fun p => (p.1, Json.str p.2)))).map (fun l => some (toGoMap l)) = _
    rw [mapMOpt_pairStr m]
    simp [toGoMap_eq_self m (strictSorted_keys_nodup m hs)]

/-- Decoding the encoding of a slice of canonical
`map[string]string` values. -/
theorem mapMOpt_decMapSS :
    ∀ (xs : List (Option (List (String × String)))),
      (∀ mm ∈ xs, mapEntriesCanon mm = true) →
      mapMOpt decMapSS (xs.map encMapSS) = some xs
  | [], _ => rfl
  | x :: xs, h => by
      have hx := decMapSS_encMapSS x (h x (by simp))
      have ih := mapMOpt_decMapSS xs (fun mm hm => h mm (by simp [hm]))
      simp [mapMOpt, hx, ih]

/-- Folding a singleton segment is one assignment. -/
theorem foldlM_single (b : Contact) (x : String × Json) :
    [x].foldlM assignContactKey b = assignContactKey b x := by
  simp [List.foldlM_cons, List.foldlM_nil]

/-- Chaining segment folds across an append. -/
theorem foldlM_append_step (l1 l2 : List (String × Json)) (b s : Contact)
    (target : Option Contact)
    (h1 : l1.foldlM assignContactKey b = some s)
    (h2 : l2.foldlM assignContactKey s = target) :
    (l1 ++ l2).foldlM assignContactKey b = target := by
  rw [List.foldlM_append, h1]
  simpa using h2

/-- Decoding the `id` segment. -/
theorem seg_id (n : Nat) (s : Contact) (hs : s.ID = 0) :
    (encNatOmit "id" n).foldlM assignContactKey s = some { s with ID := n } := by
  by_cases hn : n = 0
  · subst hn
    show some s = some { s with ID := 0 }
    rw [← hs]
  · show (if n = 0 then ([] : List (String × Json)) else [("id", Json.num n)]).foldlM
        assignContactKey s = _
    rw [if_neg hn, foldlM_single]
    have he : assignContactKey s ("id", Json.num (n : Int)) =
        if (0 : Int) ≤ (n : Int) then some { s with ID := ((n : Int)).toNat } else none := rfl
    rw [he, if_pos (Int.natCast_nonneg n)]
    simp

/-- Decoding the `unique_external_id` segment. -/
theorem seg_uei (v : String) (s : Contact) (hs : s.UniqueExternalID = "") :
    (encStrOmit "unique_external_id" v).foldlM assignContactKey s = some { s with UniqueExternalID := v } := by
  by_cases hv : v = ""
  · subst hv
    show some s = some { s with UniqueExternalID := "" }
    rw [← hs]
  · show (if v = "" then ([] : List (String × Json)) else [("unique_external_id", Json.str v)]).foldlM
        assignContactKey s = _
    rw [if_neg hv, foldlM_single]
    rfl

/-- Decoding the `email` segment. -/
theorem seg_email (v : String) (s : Contact) (hs : s.Email = "") :
    (encStrOmit "email" v).foldlM assignContactKey s = some { s with Email := v } := by
  by_cases hv : v = ""
  · subst hv
    show some s = some { s with Email := "" }
    rw [← hs]
  · show (if v = "" then ([] : List (String × Json)) else [("email", Json.str v)]).foldlM
        assignContactKey s = _
    rw [if_neg hv, foldlM_single]
    rfl

/-- Decoding the `active` segment. -/
theorem seg_active (b : Bool) (s : Contact) :
    (encBool "active" b).foldlM assignContactKey s = some { s with Active := b } := by
  show [("active", Json.bool b)].foldlM assignContactKey s = _
  rw [foldlM_single]
  rfl

/-- Decoding the `view_all_tickets` segment. -/
theorem seg_view_all_tickets (b : Bool) (s : Contact) :
    (encBool "view_all_tickets" b).foldlM assignContactKey s = some { s with ViewAllTickets := b } := by
  show [("view_all_tickets", Json.bool b)].foldlM assignContactKey s = _
  rw [foldlM_single]
  rfl

/-- Decoding the `deleted` segment. -/
theorem seg_deleted (b : Bool) (s : Contact) (hs : s.Deleted = false) :
    (encBoolOmit "deleted" b).foldlM assignContactKey s = some { s with Deleted := b } := by
  cases b with
  | false =>
    show some s = some { s with Deleted := false }
    rw [← hs]
  | true =>
    show [("deleted", Json.bool true)].foldlM assignContactKey s = _
    rw [foldlM_single]
    rfl

/-- Decoding the `name` segment. -/
theorem seg_name (v : String) (s : Contact) :
    ([("name", Json.str v)] : List (String × Json)).foldlM assignContactKey s
      = some { s with Name := v } := by
  rw [foldlM_single]
  rfl

/-- Decoding the `created_at` segment. -/
theorem seg_created_at (o : Option String) (s : Contact) (hs : s.CreatedAt = none) :
    (encOptStrOmit "created_at" o).foldlM assignContactKey s = some { s with CreatedAt := o } := by
  cases o with
  | none =>
    show some s = some { s with CreatedAt := none }
    rw [← hs]
  | some v =>
    show [("created_at", Json.str v)].foldlM assignContactKey s = _
    rw [foldlM_single]
    rfl

/-- Decoding the `updated_at` segment. -/
theorem seg_updated_at (o : Option String) (s : Contact) (hs : s.UpdatedAt = none) :
    (encOptStrOmit "updated_at" o).foldlM assignContactKey s = some { s with UpdatedAt := o } := by
  cases o with
  | none =>
    show some s = some { s with UpdatedAt := none }
    rw [← hs]
  | some v =>
    show [("updated_at", Json.str v)].foldlM assignContactKey s = _
    rw [foldlM_single]
    rfl

/-- Decoding the `job_title` segment. -/
theorem seg_job_title (o : Option String) (s : Contact) (hs : s.JobTitle = none) :
    (encOptStrOmit "job_title" o).foldlM assignContactKey s = some { s with JobTitle := o } := by
  cases o with
  | none =>
    show some s = some { s with JobTitle := none }
    rw [← hs]
  | some v =>
    show [("job_title", Json.str v)].foldlM assignContactKey s = _
    rw [foldlM_single]
    rfl

/-- Decoding the `description` segment. -/
theorem seg_description_field (o : Option String) (s : Contact) (hs : s.Description = none) :
    (encOptStrOmit "description" o).foldlM assignContactKey s = some { s with Description := o } := by
  cases o with
  | none =>
    show some s = some { s with Description := none }
    rw [← hs]
  | some v =>
    show [("description", Json.str v)].foldlM assignContactKey s = _
    rw [foldlM_single]
    rfl

/-- Decoding the `address` segment. -/
theorem seg_address (o : Option String) (s : Contact) (hs : s.Address = none) :
    (encOptStrOmit "address" o).foldlM assignContactKey s = some { s with Address := o } := by
  cases o with
  | none =>
    show some s = some { s with Address := none }
    rw [← hs]
  | some v =>
    show [("address", Json.str v)].foldlM assignContactKey s = _
    rw [foldlM_single]
    rfl

/-- Decoding the `phone` segment. -/
theorem seg_phone (o : Option String) (s : Contact) (hs : s.Phone = none) :
    (encOptStrOmit "phone" o).foldlM assignContactKey s = some { s with Phone := o } := by
  cases o with
  | none =>
    show some s = some { s with Phone := none }
    rw [← hs]
  | some v =>
    show [("phone", Json.str v)].foldlM assignContactKey s = _
    rw [foldlM_single]
    rfl

/-- Decoding the `mobile` segment. -/
theorem seg_mobile (o : Option String) (s : Contact) (hs : s.Mobile = none) :
    (encOptStrOmit "mobile" o).foldlM assignContactKey s = some { s with Mobile := o } := by
  cases o with
  | none =>
    show some s = some { s with Mobile := none }
    rw [← hs]
  | some v =>
    show [("mobile", Json.str v)].foldlM assignContactKey s = _
    rw [foldlM_single]
    rfl

/-- Decoding the `twitter_id` segment. -/
theorem seg_twitter_id (o : Option String) (s : Contact) (hs : s.TwitterID = none) :
    (encOptStrOmit "twitter_id" o).foldlM assignContactKey s = some { s with TwitterID := o } := by
  cases o with
  | none =>
    show some s = some { s with TwitterID := none }
    rw [← hs]
  | some v =>
    show [("twitter_id", Json.str v)].foldlM assignContactKey s = _
    rw [foldlM_single]
    rfl

/-- Decoding the `time_zone` segment. -/
theorem seg_time_zone (o : Option String) (s : Contact) (hs : s.TimeZone = none) :
    (encOptStrOmit "time_zone" o).foldlM assignContactKey s = some { s with TimeZone := o } := by
  cases o with
  | none =>
    show some s = some { s with TimeZone := none }
    rw [← hs]
  | some v =>
    show [("time_zone", Json.str v)].foldlM assignContactKey s = _
    rw [foldlM_single]
    rfl

/-- Decoding the `language` segment. -/
theorem seg_language (o : Option String) (s : Contact) (hs : s.Language = none) :
    (encOptStrOmit "language" o).foldlM assignContactKey s = some { s with Language := o } := by
  cases o with
  | none =>
    show some s = some { s with Language := none }
    rw [← hs]
  | some v =>
    show [("language", Json.str v)].foldlM assignContactKey s = _
    rw [foldlM_single]
    rfl

/-- Decoding the `company_id` segment. -/
theorem seg_company_id (o : Option String) (s : Contact) (hs : s.CompanyID = none) :
    (encOptStrOmit "company_id" o).foldlM assignContactKey s = some { s with CompanyID := o } := by
  cases o with
  | none =>
    show some s = some { s with CompanyID := none }
    rw [← hs]
  | some v =>
    show [("company_id", Json.str v)].foldlM assignContactKey s = _
    rw [foldlM_single]
    rfl

/-- Decoding the `other_emails` segment. -/
theorem seg_other_emails (o : Option (List String)) (s : Contact) (hs : s.OtherEmails = none)
    (hc : sliceCanon o = true) :
    (encSliceOmit "other_emails" Json.str o).foldlM assignContactKey s
      = some { s with OtherEmails := o } := by
  cases o with
  | none =>
    show some s = some { s with OtherEmails := none }
    rw [← hs]
  | some xs =>
    cases xs with
    | nil => exact absurd hc (by simp [sliceCanon])
    | cons x rest =>
      show [("other_emails", Json.arr ((x :: rest).map Json.str))].foldlM assignContactKey s = _
      rw [foldlM_single]
      have he : assignContactKey s ("other_emails", Json.arr ((x :: rest).map Json.str)) =
          (mapMOpt decStrVal ((x :: rest).map Json.str)).map
            (fun l => { s with OtherEmails := some l }) := rfl
      rw [he, mapMOpt_decStr]
      rfl

/-- Decoding the `tags` segment. -/
theorem seg_tags (o : Option (List String)) (s : Contact) (hs : s.Tags = none)
    (hc : sliceCanon o = true) :
    (encSliceOmit "tags" Json.str o).foldlM assignContactKey s
      = some { s with Tags := o } := by
  cases o with
  | none =>
    show some s = some { s with Tags := none }
    rw [← hs]
  | some xs =>
    cases xs with
    | nil => exact absurd hc (by simp [sliceCanon])
    | cons x rest =>
      show [("tags", Json.arr ((x :: rest).map Json.str))].foldlM assignContactKey s = _
      rw [foldlM_single]
      have he : assignContactKey s ("tags", Json.arr ((x :: rest).map Json.str)) =
          (mapMOpt decStrVal ((x :: rest).map Json.str)).map
            (fun l => { s with Tags := some l }) := rfl
      rw [he, mapMOpt_decStr]
      rfl

/-- Decoding the `other_phone_numbers` segment. -/
theorem seg_other_phones (o : Option (List (Option (List (String × String))))) (s : Contact)
    (hs : s.OtherPhones = none) (hc : mapSliceCanon o = true) :
    (encSliceOmit "other_phone_numbers" encMapSS o).foldlM assignContactKey s
      = some { s with OtherPhones := o } := by
  cases o with
  | none =>
    show some s = some { s with OtherPhones := none }
    rw [← hs]
  | some xs =>
    cases xs with
    | nil => exact absurd hc (by simp [mapSliceCanon])
    | cons x rest =>
      have hall : ∀ mm ∈ x :: rest, mapEntriesCanon mm = true := by
        have hxs : (x :: rest).all mapEntriesCanon = true := by
          simpa [mapSliceCanon] using hc
        simpa [List.all_eq_true] using hxs
      show [("other_phone_numbers", Json.arr ((x :: rest).map encMapSS))].foldlM assignContactKey s = _
      rw [foldlM_single]
      have he : assignContactKey s ("other_phone_numbers", Json.arr ((x :: rest).map encMapSS)) =
          (mapMOpt decMapSS ((x :: rest).map encMapSS)).map
            (fun l => { s with OtherPhones := some l }) := rfl
      rw [he, mapMOpt_decMapSS (x :: rest) hall]
      rfl

/-- Decoding the `other_companies` segment. -/
theorem seg_other_companies (o : Option (List (Option (List (String × String))))) (s : Contact)
    (hs : s.OtherCompanies = none) (hc : mapSliceCanon o = true) :
    (encSliceOmit "other_companies" encMapSS o).foldlM assignContactKey s
      = some { s with OtherCompanies := o } := by
  cases o with
  | none =>
    show some s = some { s with OtherCompanies := none }
    rw [← hs]
  | some xs =>
    cases xs with
    | nil => exact absurd hc (by simp [mapSliceCanon])
    | cons x rest =>
      have hall : ∀ mm ∈ x :: rest, mapEntriesCanon mm = true := by
        have hxs : (x :: rest).all mapEntriesCanon = true := by
          simpa [mapSliceCanon] using hc
        simpa [List.all_eq_true] using hxs
      show [("other_companies", Json.arr ((x :: rest).map encMapSS))].foldlM assignContactKey s = _
      rw [foldlM_single]
      have he : assignContactKey s ("other_companies", Json.arr ((x :: rest).map encMapSS)) =
          (mapMOpt decMapSS ((x :: rest).map encMapSS)).map
            (fun l => { s with OtherCompanies := some l }) := rfl
      rw [he, mapMOpt_decMapSS (x :: rest) hall]
      rfl

/-- Decoding the `custom_fields` segment. -/
theorem seg_custom_fields (o : Option (List (String × Json))) (s : Contact)
    (hs : s.CustomFields = none) (hc1 : sliceCanon o = true)
    (hc2 : mapEntriesCanon o = true) :
    (encMapOmit "custom_fields" o).foldlM assignContactKey s
      = some { s with CustomFields := o } := by
  cases o with
  | none =>
    show some s = some { s with CustomFields := none }
    rw [← hs]
  | some m =>
    cases m with
    | nil => exact absurd hc1 (by simp [sliceCanon])
    | cons kv rest =>
      have hsrt : keysStrictSorted (kv :: rest) = true := by
        simpa [mapEntriesCanon] using hc2
      show [("custom_fields", Json.obj (sortPairs (kv :: rest)))].foldlM
          assignContactKey s = _
      rw [foldlM_single, sortPairs_eq_self (kv :: rest) hsrt]
      have he : assignContactKey s ("custom_fields", Json.obj (kv :: rest)) =
          some { s with CustomFields := some (toGoMap (kv :: rest)) } := rfl
      rw [he, toGoMap_eq_self (kv :: rest) (strictSorted_keys_nodup (kv :: rest) hsrt)]

/-- C8 counterexample: the record whose `OtherEmails` is an empty but
non-nil slice does not survive the round trip — `omitempty` drops the
empty slice from the encoding, and decoding the result leaves the field
nil; Go's `reflect.DeepEqual` distinguishes nil from empty slices. -/
theorem contact_roundtrip_not_universal :
    decodeContact (encodeContact contactEmptyOtherEmails)
      ≠ some contactEmptyOtherEmails := by
  intro h
  exact absurd (congrArg (Option.map Contact.OtherEmails) h) (by decide)

/-- C8 (amended): decoding the encoding of a Contact record returns the
record, for every record in canonical form — no empty-but-non-nil
collection fields, and association lists (the model of Go maps) in
strictly sorted, duplicate-free key order. -/
theorem contact_roundtrip_canonical (c : Contact) (hc : c.canonical = true) :
    decodeContact (encodeContact c) = some c := by
  obtain ⟨⟨⟨⟨⟨h1, h2⟩, h3⟩, h4⟩, h5⟩, h6⟩ :
      ((((sliceCanon c.OtherEmails = true ∧ mapSliceCanon c.OtherPhones = true) ∧
        mapSliceCanon c.OtherCompanies = true) ∧ sliceCanon c.Tags = true) ∧
        sliceCanon c.CustomFields = true) ∧ mapEntriesCanon c.CustomFields = true := by
    simpa [Contact.canonical, Bool.and_eq_true] using hc
  refine foldlM_append_step _ _ _ _ _ (seg_id c.ID Contact.zero rfl) ?_
  refine foldlM_append_step _ _ _ _ _ (seg_uei c.UniqueExternalID _ rfl) ?_
  refine foldlM_append_step _ _ _ _ _ (seg_active c.Active _) ?_
  refine foldlM_append_step _ _ _ _ _ (seg_deleted c.Deleted _ rfl) ?_
  refine foldlM_append_step _ _ _ _ _ (seg_created_at c.CreatedAt _ rfl) ?_
  refine foldlM_append_step _ _ _ _ _ (seg_updated_at c.UpdatedAt _ rfl) ?_
  refine foldlM_append_step _ _ _ _ _ (seg_view_all_tickets c.ViewAllTickets _) ?_
  refine foldlM_append_step _ _ _ _ _ (seg_name c.Name _) ?_
  refine foldlM_append_step _ _ _ _ _ (seg_job_title c.JobTitle _ rfl) ?_
  refine foldlM_append_step _ _ _ _ _ (seg_description_field c.Description _ rfl) ?_
  refine foldlM_append_step _ _ _ _ _ (seg_address c.Address _ rfl) ?_
  refine foldlM_append_step _ _ _ _ _ (seg_email c.Email _ rfl) ?_
  refine foldlM_append_step _ _ _ _ _ (seg_other_emails c.OtherEmails _ rfl h1) ?_
  refine foldlM_append_step _ _ _ _ _ (seg_phone c.Phone _ rfl) ?_
  refine foldlM_append_step _ _ _ _ _ (seg_mobile c.Mobile _ rfl) ?_
  refine foldlM_append_step _ _ _ _ _ (seg_other_phones c.OtherPhones _ rfl h2) ?_
  refine foldlM_append_step _ _ _ _ _ (seg_twitter_id c.TwitterID _ rfl) ?_
  refine foldlM_append_step _ _ _ _ _ (seg_time_zone c.TimeZone _ rfl) ?_
  refine foldlM_append_step _ _ _ _ _ (seg_language c.Language _ rfl) ?_
  refine foldlM_append_step _ _ _ _ _ (seg_company_id c.CompanyID _ rfl) ?_
  refine foldlM_append_step _ _ _ _ _ (seg_other_companies c.OtherCompanies _ rfl h3) ?_
  refine foldlM_append_step _ _ _ _ _ (seg_tags c.Tags _ rfl h4) ?_
  exact seg_custom_fields c.CustomFields _ rfl h5 h6

/-- C8 witness: a concrete canonical contact exercising scalar, pointer,
slice and map fields round-trips. -/
theorem contact_roundtrip_canonical_witness :
    contactSample.canonical = true
      ∧ decodeContact (encodeContact contactSample) = some contactSample :=
  ⟨by decide, contact_roundtrip_canonical contactSample (by decide)⟩
